import Mathlib

/-!
Verification of the fairlight request/cache orchestration core.

This file gives a shallow embedding, in Lean 4, of the TypeScript request
orchestration engine: request-key canonicalization (`getParamsId` and its
helpers from `src/api/lib.tsx`), the generic key/value cache
(`src/api/generic-cache.tsx`), the request manager with in-flight request
deduplication and error classification (`src/api/request-manager/index.tsx`),
and the `Api` facade with its fetch-policy dispatch (`src/api/index.tsx`).

Modelling conventions:
* JavaScript strings are Lean `String`s; the default `Array.prototype.sort`
  comparator (compare the UTF-16 code-unit sequences of the string
  conversions) is modelled by lexicographic comparison of the character
  lists (`charListLe`), which agrees with the UTF-16 order on the Basic
  Multilingual Plane and in particular on all ASCII data handled here.
  `Array.prototype.sort` itself is modelled by an insertion sort; the
  JS specification leaves the algorithm open, and all arrays sorted by this
  code are free of comparator ties, so any correct sort denotes the same
  function.
* A JS object used as a string-keyed record (headers, `Map`) is modelled as
  an association list in insertion order; assigning to an existing key
  updates the value in place, assigning to a fresh key appends.
* JS `null`/`undefined` are modelled by `Option.none`; `a ?? b` and
  `a || b` on option-typed data become `Option.getD`.
* JS numbers appearing as HTTP status codes are modelled as `Int`;
  `String(n)` is `jsIntToString`, decimal notation (fuel-based so that it
  evaluates by kernel reduction).
-/

/-- Lexicographic comparison of character lists by code point, the model of
JS string comparison (`<`/`>` on strings, and the default sort comparator). -/
def charListLe : List Char → List Char → Bool
  | [], _ => true
  | _ :: _, [] => false
  | a :: as, b :: bs =>
    if a.toNat < b.toNat then true
    else if b.toNat < a.toNat then false
    else charListLe as bs

/-- JS string `≤`, by comparing the underlying character sequences. -/
def jsStrLe (a b : String) : Bool := charListLe a.data b.data

/-- One step of insertion sort with a boolean comparator. -/
def orderedInsert (le : α → α → Bool) (a : α) : List α → List α
  | [] => [a]
  | b :: l => if le a b then a :: b :: l else b :: orderedInsert le a l

/-- Model of `Array.prototype.sort` with comparator `le` (see header notes:
the arrays sorted by this development are tie-free, so the choice of sorting
algorithm is immaterial). -/
def jsSort (le : α → α → Bool) (l : List α) : List α :=
  l.foldr (orderedInsert le) []

/-- Decimal digits of a natural number, most significant first.  The first
argument is fuel, so the definition is structurally recursive and reduces in
the kernel. -/
def natDigitsAux : Nat → Nat → List Nat
  | 0, _ => []
  | fuel + 1, n => if n < 10 then [n] else natDigitsAux fuel (n / 10) ++ [n % 10]

/-- Decimal digits of `n`, most significant first. -/
def natDigits (n : Nat) : List Nat := natDigitsAux (n + 1) n

/-- Decimal string of a natural number, the model of JS `String(n)`. -/
def jsNatToString (n : Nat) : String :=
  String.mk ((natDigits n).map fun d => Char.ofNat (48 + d))

/-- Model of JS `String(i)` for an integral JS number. -/
def jsIntToString (i : Int) : String :=
  if i < 0 then "-" ++ jsNatToString i.natAbs else jsNatToString i.toNat

/-- Escape of a single character inside a JSON string literal, as produced
by `JSON.stringify`. -/
def jsonEscapeChar (c : Char) : String :=
  if c = '"' then "\\\""
  else if c = '\\' then "\\\\"
  else if c = '\n' then "\\n"
  else if c = '\r' then "\\r"
  else if c = '\t' then "\\t"
  else if c = '\x08' then "\\b"
  else if c = '\x0c' then "\\f"
  else if c.toNat < 32 then
    "\\u00" ++ String.mk [Char.ofNat (if c.toNat / 16 < 10 then 48 + c.toNat / 16 else 87 + c.toNat / 16),
                          Char.ofNat (if c.toNat % 16 < 10 then 48 + c.toNat % 16 else 87 + c.toNat % 16)]
  else String.singleton c

/-- `JSON.stringify` of a string value. -/
def jsonQuote (s : String) : String :=
  "\"" ++ String.join (s.data.map jsonEscapeChar) ++ "\""

/-- An element of the top-level array passed to `JSON.stringify` in
`getParamsId`: every element is a string, except that a missing `extraKey`
(`undefined`) serializes as `null`. -/
inductive JsonAtom where
  | str (s : String)
  | null
  deriving DecidableEq, Repr

/-- `JSON.stringify` of an array of such elements. -/
def jsonStringifyArray (l : List JsonAtom) : String :=
  "[" ++ String.intercalate ","
    (l.map fun a => match a with | .str s => jsonQuote s | .null => "null") ++ "]"

/-! ## Data model (`src/api/typings.tsx`) -/

/-- `ApiRequestMethod = 'GET' | 'POST' | 'PUT' | 'PATCH' | 'DELETE'`. -/
inductive ApiRequestMethod where
  | GET | POST | PUT | PATCH | DELETE
  deriving DecidableEq, Repr

/-- The string a method serializes as. -/
def methodToString : ApiRequestMethod → String
  | .GET => "GET" | .POST => "POST" | .PUT => "PUT" | .PATCH => "PATCH" | .DELETE => "DELETE"

/-- `ApiResponseType = 'json' | 'text' | 'blob'`. -/
inductive ApiResponseType where
  | json | text | blob
  deriving DecidableEq, Repr

/-- The string a response type serializes as (`params.responseType || ''`). -/
def responseTypeToString : Option ApiResponseType → String
  | none => ""
  | some .json => "json" | some .text => "text" | some .blob => "blob"

/-- `ApiHeaders = Record<string, string>`: a JS object, i.e. an association
list of key/value pairs in insertion order with pairwise-distinct keys. -/
abbrev ApiHeaders := List (String × String)

/-- An entry of a `successCodes` array.  The TS type is `number[]`, but the
code defends against non-number entries (`null` in the test-suite) with a
`typeof code === 'number'` filter, so an entry is modelled as a number or a
non-number placeholder. -/
inductive JsCode where
  | num (i : Int)
  | null
  deriving DecidableEq, Repr

/-- `ResponseBody = Blob | object | string`.  The only falsy value of this
union is the empty string. -/
inductive ResponseBody where
  | str (s : String)
  | obj (fields : List (String × String))
  | blob (bytes : List Nat)
  deriving DecidableEq, Repr

/-- JS truthiness of a `ResponseBody`: objects and blobs are truthy, a
string is truthy iff it is non-empty. -/
def ResponseBody.truthy : ResponseBody → Bool
  | .str s => s ≠ ""
  | .obj _ => true
  | .blob _ => true

/-- `RequestBody = BodyInit | object` (only its identity matters here). -/
inductive RequestBody where
  | str (s : String)
  | obj (fields : List (String × String))
  | blob (bytes : List Nat)
  deriving DecidableEq, Repr

/-- `ApiRequestParams`: the request descriptor.  `body` is only present for
mutation methods in the TS types; here it is an optional field that
`getParamsId` ignores. -/
structure ApiRequestParams where
  url : String
  method : Option ApiRequestMethod := none
  headers : Option ApiHeaders := none
  responseType : Option ApiResponseType := none
  successCodes : Option (List JsCode) := none
  extraKey : Option String := none
  body : Option RequestBody := none
  deriving DecidableEq, Repr

/-- `ApiRequestFetchPolicy`. -/
inductive ApiRequestFetchPolicy where
  | noCache | cacheFirst | fetchFirst | cacheOnly | cacheAndFetch
  deriving DecidableEq, Repr

/-- `ApiRequestOptions`. -/
structure ApiRequestOptions where
  fetchPolicy : Option ApiRequestFetchPolicy := none
  deduplicate : Option Bool := none
  deriving DecidableEq, Repr

/-! ## Constants (`src/api/constants.tsx`) -/

/-- `READ_CACHE_POLICIES = ['cache-first', 'cache-only', 'cache-and-fetch']`. -/
def READ_CACHE_POLICIES : List ApiRequestFetchPolicy :=
  [.cacheFirst, .cacheOnly, .cacheAndFetch]

/-- `DEFAULT_FETCH_POLICY = 'no-cache'`. -/
def DEFAULT_FETCH_POLICY : ApiRequestFetchPolicy := .noCache

/-- `DEFAULT_REQUEST_METHOD = 'GET'`. -/
def DEFAULT_REQUEST_METHOD : ApiRequestMethod := .GET

/-! ## Request keys (`src/api/lib.tsx`) -/

/-- ASCII model of `String.prototype.toLowerCase` on a character (HTTP
header names are ASCII tokens). -/
def jsCharToLower (c : Char) : Char :=
  if 65 ≤ c.toNat ∧ c.toNat ≤ 90 then Char.ofNat (c.toNat + 32) else c

/-- ASCII model of `String.prototype.toLowerCase`. -/
def jsToLower (s : String) : String := String.mk (s.data.map jsCharToLower)

/-- Assignment `obj[k] = v` on a JS object: update in place when the key
exists, append otherwise. -/
def jsObjSet (o : ApiHeaders) (k v : String) : ApiHeaders :=
  if o.any (fun p => p.1 == k) then
    o.map (fun p => if p.1 == k then (k, v) else p)
  else o ++ [(k, v)]

/-- `cloneHeaders(headers)` — `{...headers}`, a value-equal copy. -/
def cloneHeaders (headers : ApiHeaders) : ApiHeaders := headers

/-- `applyHeaders(prevHeaders, headers)`: clone `prevHeaders`, then assign
`nextHeaders[key.toLowerCase()] = headers[key]` for each key of `headers`
in insertion order. -/
def applyHeaders (prevHeaders headers : ApiHeaders) : ApiHeaders :=
  headers.foldl
    (fun nextHeaders kv => jsObjSet nextHeaders (jsToLower kv.1) kv.2)
    (cloneHeaders prevHeaders)

/-- `serializeHeaders(paramHeaders)`: lower-case the keys via
`applyHeaders({}, paramHeaders)`, render each entry as `key:value;`, sort the
rendered pairs, and concatenate. -/
def serializeHeaders : Option ApiHeaders → String
  | none => ""
  | some paramHeaders =>
    let headers := applyHeaders ([] : ApiHeaders) paramHeaders
    let headerPairs := headers.map (fun kv => kv.1 ++ ":" ++ kv.2 ++ ";")
    String.join (jsSort jsStrLe headerPairs)

/-- The `typeof code === 'number'` filter on a `successCodes` array. -/
def filterNumbers (codes : List JsCode) : List Int :=
  codes.filterMap fun c => match c with | .num i => some i | .null => none

/-- `uniqueCodes(codes)` — `codes.filter((value, index, self) =>
self.indexOf(value) === index)`, keeping the first occurrence of each
value. -/
def uniqueCodes (codes : List Int) : List Int :=
  ((codes.enum.filter fun p => codes.indexOf p.2 == p.1).map Prod.snd)

/-- The default sort comparator applied to numbers: compare their decimal
strings. -/
def jsIntLeByStr (a b : Int) : Bool := jsStrLe (jsIntToString a) (jsIntToString b)

/-- `serializeSuccessCodes(successCodes)`: filter to numbers, de-duplicate,
sort with the default (string) comparator, and `JSON.stringify` the
resulting number array. -/
def serializeSuccessCodes : Option (List JsCode) → String
  | none => ""
  | some successCodes =>
    let serializedCodes := jsSort jsIntLeByStr (uniqueCodes (filterNumbers successCodes))
    "[" ++ String.intercalate "," (serializedCodes.map jsIntToString) ++ "]"

/-- `getParamsId(params)`: the request key, `JSON.stringify` of the 6-tuple
of method (defaulted to `GET`), url, response type (defaulted to `''`),
serialized headers, `extraKey` (`undefined` serializes as `null`) and
serialized success codes.  The request body is not consulted. -/
def getParamsId (params : ApiRequestParams) : String :=
  jsonStringifyArray [
    .str (methodToString (params.method.getD DEFAULT_REQUEST_METHOD)),
    .str params.url,
    .str (responseTypeToString params.responseType),
    .str (serializeHeaders params.headers),
    (match params.extraKey with | some s => .str s | none => .null),
    .str (serializeSuccessCodes params.successCodes)]

/-! ## Canonicalized views of a descriptor (used to state key equivalence) -/

/-- The header object of a descriptor with every key lower-cased, as a list
of pairs in insertion order (`none` and an empty header object both
canonicalize to the empty list). -/
def lowerHeaderList : Option ApiHeaders → List (String × String)
  | none => []
  | some l => l.map fun p => (jsToLower p.1, p.2)

/-- The header object names a well-defined case-insensitive set of headers:
no two keys collide after lower-casing.  (Every JS header object whose keys
are already distinct case-insensitively satisfies this.) -/
def headersNodupCI : Option ApiHeaders → Prop
  | none => True
  | some l => (l.map fun p => jsToLower p.1).Nodup

/-! ## JS `Map` and `GenericCache` (`src/api/generic-cache.tsx`)

A `Map<string, V>` is an association list in insertion order; `set` updates
in place or appends, `delete` removes the entry. -/

/-- `Map.prototype.get`. -/
def mapGet (m : List (String × V)) (k : String) : Option V :=
  (m.find? (fun p => p.1 == k)).map (fun p => p.2)

/-- `Map.prototype.set`. -/
def mapSet (m : List (String × V)) (k : String) (v : V) : List (String × V) :=
  if m.any (fun p => p.1 == k) then m.map (fun p => if p.1 == k then (k, v) else p)
  else m ++ [(k, v)]

/-- `Map.prototype.delete`. -/
def mapDel (m : List (String × V)) (k : String) : List (String × V) :=
  m.filter (fun p => p.1 != k)

/-- `GenericCache.get` on the response-body cache:
`this.valuesByCacheKey.get(key) || null`.  A stored value may be the JS
`null` (modelled `none`) because the response stream can carry a `null`
body; the `|| null` coalesces a missing entry, a stored `null` and a stored
falsy body (the empty string) alike to `null`. -/
def respCacheGet (cache : List (String × Option ResponseBody)) (key : String) :
    Option ResponseBody :=
  match mapGet cache key with
  | some (some v) => if v.truthy then some v else none
  | _ => none

/-! ## Request manager (`src/api/request-manager/index.tsx`)

The manager's effects are modelled as a state record: the in-flight request
`Map`, counters producing fresh `Symbol()` identity tokens and fresh promise
objects (a promise is identified by the `Nat` it was allocated with, so two
promise values are the same JS object exactly when the `Nat`s are equal),
and a counter of `requestFetcher.getResponse` invocations (the Transport
boundary).  An `async` function body runs synchronously up to its first
`await`, which in `fetchResponseBody` is the Transport call, so a
non-deduplicated `getResponseBody` increments `transportCalls` at call
time. -/

/-- An entry of `inProgressRequestCache`: `{id: symbol, requestPromise}`. -/
structure InFlightEntry where
  id : Nat
  requestPromise : Nat
  deriving DecidableEq, Repr

/-- The mutable state of an `ApiRequestManager` (constructor defaults:
`defaultFetchPolicy = params.defaultFetchPolicy || DEFAULT_FETCH_POLICY`,
`parseResponseJson = params.parseResponseJson || identity`). -/
structure RMState where
  defaultFetchPolicy : ApiRequestFetchPolicy
  parseResponseJson : Option ResponseBody → ApiRequestParams → Option ResponseBody
  inProgressRequestCache : List (String × InFlightEntry)
  nextSymbol : Nat
  nextPromise : Nat
  transportCalls : Nat

/-- `defaultDeduplicate(params)` — `params.method === 'GET' ? true : false`
(an absent method compares unequal to `'GET'`). -/
def defaultDeduplicate (params : ApiRequestParams) : Bool :=
  params.method == some ApiRequestMethod.GET

/-- `ApiRequestManager.getResponseBody`: return the in-flight promise when
one exists and deduplication applies; otherwise mint a fresh identity token
and promise, fire the fetch (invoking Transport synchronously) and register
it under the key, overwriting any previous owner. -/
def getResponseBody (params : ApiRequestParams) (options : ApiRequestOptions)
    (st : RMState) : Nat × RMState :=
  let paramsKey := getParamsId params
  let cachedRequest := mapGet st.inProgressRequestCache paramsKey
  let deduplicate := options.deduplicate.getD (defaultDeduplicate params)
  match cachedRequest, deduplicate with
  | some entry, true => (entry.requestPromise, st)
  | _, _ =>
    let id := st.nextSymbol
    let fetchPromise := st.nextPromise
    (fetchPromise,
      { st with
          nextSymbol := st.nextSymbol + 1
          nextPromise := st.nextPromise + 1
          transportCalls := st.transportCalls + 1
          inProgressRequestCache :=
            mapSet st.inProgressRequestCache paramsKey ⟨id, fetchPromise⟩ })

/-- The `finally` clause of `ApiRequestManager.createRequestPromise`: when
the request with identity token `id` settles, delete the registry entry for
its key only if that entry still carries `id`. -/
def cleanupInFlight (params : ApiRequestParams) (id : Nat) (st : RMState) : RMState :=
  let paramsId := getParamsId params
  match mapGet st.inProgressRequestCache paramsId with
  | some cachedRequest =>
    if cachedRequest.id = id then
      { st with inProgressRequestCache := mapDel st.inProgressRequestCache paramsId }
    else st
  | none => st

/-! ## Error classification (`src/api/errors.tsx`, `maybeThrowApiError`) -/

/-- `ApiError(method, url, status, responseBody, responseType)`. -/
structure ApiError where
  method : ApiRequestMethod
  url : String
  status : Int
  responseBody : Option ResponseBody
  responseType : Option ApiResponseType
  deriving DecidableEq, Repr

/-- `ApiCacheMissError` (an `Error` subclass carrying only its message). -/
structure ApiCacheMissError where
  message : String
  deriving DecidableEq, Repr

/-- `RequestFetcherResponse = {body, bodyType, status}`. -/
structure RequestFetcherResponse where
  body : Option ResponseBody
  bodyType : Option ApiResponseType
  status : Int
  deriving DecidableEq, Repr

/-- `ApiRequestManager.maybeThrowApiError`: with a `successCodes` array the
request fails exactly when every entry differs from the status (a non-number
entry differs from every status); without one it fails exactly when the
status lies outside `200..299`.  Failure throws `ApiError` with the
descriptor's method (defaulted to `GET`), url, status, and the response's
body and body kind. -/
def maybeThrowApiError (params : ApiRequestParams) (r : RequestFetcherResponse) :
    Except ApiError Unit :=
  match params.successCodes with
  | some successCodes =>
    if successCodes.all (fun code => match code with | .num i => r.status != i | .null => true) then
      .error ⟨params.method.getD DEFAULT_REQUEST_METHOD, params.url, r.status, r.body, r.bodyType⟩
    else .ok ()
  | none =>
    if r.status < 200 ∨ r.status > 299 then
      .error ⟨params.method.getD DEFAULT_REQUEST_METHOD, params.url, r.status, r.body, r.bodyType⟩
    else .ok ()

/-! ## The `Api` facade (`src/api/index.tsx`) -/

/-- A failure delivered on the error channel and through a rejected request
promise: an `ApiError` from classification, or an exception thrown by the
Transport itself. -/
inductive ApiFailure where
  | api (e : ApiError)
  | exn (message : String)
  deriving DecidableEq, Repr

/-- The result of a Transport call: a response, or a thrown exception. -/
inductive TransportResult where
  | ok (response : RequestFetcherResponse)
  | exn (message : String)
  deriving DecidableEq, Repr

/-- The state of an `Api` instance: the manager state, the response-body
cache, and the histories of the per-key cache-update streams (pairs of
request key and emitted body) and of the error stream. -/
structure ApiState where
  manager : RMState
  responseBodyCache : List (String × Option ResponseBody)
  cacheUpdateEvents : List (String × Option ResponseBody)
  errorEvents : List ApiFailure

/-- The outcome of `Api.request` as observable at call time: a pending
promise handed through from the manager, a promise resolved with a cached
body, or a promise rejected with `ApiCacheMissError`. -/
inductive ApiRequestResult where
  | pending (promise : Nat)
  | resolved (value : ResponseBody)
  | rejected (error : ApiCacheMissError)
  deriving DecidableEq, Repr

/-- `Api.writeCachedResponse`: store the body under the descriptor's key and
emit it on that key's cache-update stream.  (Its TS signature takes a
non-null body; the subscription that forwards network responses can pass a
`null` body at runtime, hence the option type.) -/
def writeCachedResponse (st : ApiState) (params : ApiRequestParams)
    (responseBody : Option ResponseBody) : ApiState :=
  { st with
      responseBodyCache := mapSet st.responseBodyCache (getParamsId params) responseBody
      cacheUpdateEvents := st.cacheUpdateEvents ++ [(getParamsId params, responseBody)] }

/-- `Api.readCachedResponse`: a synchronous cache read
(`responseBodyCache.get(getParamsId(params))`, which is `null` on a miss). -/
def readCachedResponse (st : ApiState) (params : ApiRequestParams) : Option ResponseBody :=
  respCacheGet st.responseBodyCache (getParamsId params)

/-- The json-parse hook applied by `fetchResponseBody`:
`response.bodyType === 'json' ? parseResponseJson(response.body, params) :
response.body`. -/
def parsedBodyOf (st : ApiState) (params : ApiRequestParams)
    (response : RequestFetcherResponse) : Option ResponseBody :=
  if response.bodyType = some ApiResponseType.json then
    st.manager.parseResponseJson response.body params
  else response.body

/-- The continuation of `ApiRequestManager.fetchResponseBody` after the
Transport call settles, composed with the subscriptions made by the `Api`
constructor: parse a json body, classify via `maybeThrowApiError`; on
success emit the body on the response stream — which `Api` forwards to
`writeCachedResponse` — unless the effective fetch policy is `'no-cache'`;
on any thrown error emit it on the error stream and re-throw, leaving the
response cache untouched. -/
def settleFetch (st : ApiState) (params : ApiRequestParams)
    (options : ApiRequestOptions) (tres : TransportResult) :
    ApiState × Except ApiFailure (Option ResponseBody) :=
  let fetchPolicy := options.fetchPolicy.getD st.manager.defaultFetchPolicy
  match tres with
  | .exn msg =>
    ({ st with errorEvents := st.errorEvents ++ [.exn msg] }, .error (.exn msg))
  | .ok response =>
    let parsedBody := parsedBodyOf st params response
    match maybeThrowApiError params { response with body := parsedBody } with
    | .error e =>
      ({ st with errorEvents := st.errorEvents ++ [.api e] }, .error (.api e))
    | .ok _ =>
      if fetchPolicy ≠ ApiRequestFetchPolicy.noCache then
        (writeCachedResponse st params parsedBody, .ok parsedBody)
      else (st, .ok parsedBody)

/-- `Api.request`: for a policy outside `READ_CACHE_POLICIES` go straight to
the manager (network path); otherwise read the cache — on a hit resolve with
the cached body, additionally kicking off a background fetch (whose
rejection is swallowed by `.catch`) when the policy is `'cache-and-fetch'`;
on a miss reject with `ApiCacheMissError` under `'cache-only'` and fall
through to the network path otherwise. -/
def apiRequest (st : ApiState) (params : ApiRequestParams)
    (options : ApiRequestOptions) : ApiRequestResult × ApiState :=
  let fetchPolicy := options.fetchPolicy.getD DEFAULT_FETCH_POLICY
  if ¬ READ_CACHE_POLICIES.contains fetchPolicy then
    let r := getResponseBody params options st.manager
    (.pending r.1, { st with manager := r.2 })
  else
    match respCacheGet st.responseBodyCache (getParamsId params) with
    | some cachedResponse =>
      if fetchPolicy = ApiRequestFetchPolicy.cacheAndFetch then
        let r := getResponseBody params options st.manager
        (.resolved cachedResponse, { st with manager := r.2 })
      else (.resolved cachedResponse, st)
    | none =>
      if fetchPolicy = ApiRequestFetchPolicy.cacheOnly then
        (.rejected ⟨"Cache miss: " ++ params.url⟩, st)
      else
        let r := getResponseBody params options st.manager
        (.pending r.1, { st with manager := r.2 })

/-- A freshly constructed `Api` with no custom hooks: empty caches and
streams, the identity json hooks, and the default fetch policy
(`new Api({})`). -/
def apiInitState : ApiState :=
  { manager :=
      { defaultFetchPolicy := DEFAULT_FETCH_POLICY
        parseResponseJson := fun b _ => b
        inProgressRequestCache := []
        nextSymbol := 0
        nextPromise := 0
        transportCalls := 0 }
    responseBodyCache := []
    cacheUpdateEvents := []
    errorEvents := [] }

/-! ## Order-theoretic facts about the JS comparators -/

theorem charToNat_inj {a b : Char} (h : a.toNat = b.toNat) : a = b :=
  Char.ext (UInt32.ext h)

theorem charListLe_total : ∀ a b : List Char, charListLe a b = true ∨ charListLe b a = true
  | [], _ => Or.inl rfl
  | _ :: _, [] => Or.inr rfl
  | a :: as, b :: bs => by
    by_cases hab : a.toNat < b.toNat
    · left; simp [charListLe, hab]
    · by_cases hba : b.toNat < a.toNat
      · right; simp [charListLe, hba]
      · rcases charListLe_total as bs with h | h
        · left; simp [charListLe, hab, hba, h]
        · right; simp [charListLe, hab, hba, h]

theorem charListLe_trans : ∀ a b c : List Char,
    charListLe a b = true → charListLe b c = true → charListLe a c = true
  | [], _, _, _, _ => rfl
  | _ :: _, [], _, hab, _ => by simp [charListLe] at hab
  | _ :: _, _ :: _, [], _, hbc => by simp [charListLe] at hbc
  | a :: as, b :: bs, c :: cs, hab, hbc => by
    simp only [charListLe] at hab hbc ⊢
    by_cases h₁ : a.toNat < b.toNat
    · by_cases h₂ : b.toNat < c.toNat
      · simp [Nat.lt_trans h₁ h₂]
      · by_cases h₃ : c.toNat < b.toNat
        · simp [h₂, h₃] at hbc
        · have hbc' : b.toNat = c.toNat := by omega
          simp [hbc' ▸ h₁]
    · by_cases h₄ : b.toNat < a.toNat
      · simp [h₁, h₄] at hab
      · have hab' : a.toNat = b.toNat := by omega
        by_cases h₂ : b.toNat < c.toNat
        · simp [hab' ▸ h₂]
        · by_cases h₃ : c.toNat < b.toNat
          · simp [h₂, h₃] at hbc
          · rw [if_neg h₁, if_neg h₄] at hab
            rw [if_neg h₂, if_neg h₃] at hbc
            rw [if_neg (show ¬a.toNat < c.toNat by omega),
              if_neg (show ¬c.toNat < a.toNat by omega)]
            exact charListLe_trans as bs cs hab hbc

theorem charListLe_antisymm : ∀ a b : List Char,
    charListLe a b = true → charListLe b a = true → a = b
  | [], [], _, _ => rfl
  | [], _ :: _, _, hba => by simp [charListLe] at hba
  | _ :: _, [], hab, _ => by simp [charListLe] at hab
  | a :: as, b :: bs, hab, hba => by
    simp only [charListLe] at hab hba
    by_cases h₁ : a.toNat < b.toNat
    · simp [h₁, Nat.lt_asymm h₁] at hba
    · by_cases h₂ : b.toNat < a.toNat
      · simp [h₁, h₂] at hab
      · have hc : a = b := charToNat_inj (by omega)
        rw [if_neg h₁, if_neg h₂] at hab
        rw [if_neg h₂, if_neg h₁] at hba
        exact hc ▸ congrArg (a :: ·) (charListLe_antisymm as bs hab hba)

theorem jsStrLe_total (a b : String) : jsStrLe a b = true ∨ jsStrLe b a = true :=
  charListLe_total a.data b.data

theorem jsStrLe_trans {a b c : String} (h₁ : jsStrLe a b = true) (h₂ : jsStrLe b c = true) :
    jsStrLe a c = true :=
  charListLe_trans a.data b.data c.data h₁ h₂

theorem jsStrLe_antisymm {a b : String} (h₁ : jsStrLe a b = true) (h₂ : jsStrLe b a = true) :
    a = b :=
  String.ext (charListLe_antisymm a.data b.data h₁ h₂)

/-! ## The sort model: permutation and sortedness -/

theorem orderedInsert_perm (le : α → α → Bool) (a : α) :
    ∀ l : List α, (orderedInsert le a l).Perm (a :: l)
  | [] => .refl _
  | b :: l => by
    simp only [orderedInsert]
    split
    · exact .refl _
    · exact ((orderedInsert_perm le a l).cons b).trans (List.Perm.swap a b l)

theorem jsSort_perm (le : α → α → Bool) : ∀ l : List α, (jsSort le l).Perm l
  | [] => .refl _
  | a :: l =>
    (orderedInsert_perm le a (jsSort le l)).trans ((jsSort_perm le l).cons a)

theorem orderedInsert_pairwise (le : α → α → Bool)
    (htot : ∀ x y, le x y = true ∨ le y x = true)
    (htrans : ∀ x y z, le x y = true → le y z = true → le x z = true) (a : α) :
    ∀ {l : List α}, l.Pairwise (le · · = true) →
      (orderedInsert le a l).Pairwise (le · · = true)
  | [], _ => by simp [orderedInsert]
  | b :: l, h => by
    rcases List.pairwise_cons.mp h with ⟨hb, hl⟩
    simp only [orderedInsert]
    split
    · rename_i h₁
      refine List.pairwise_cons.mpr ⟨?_, h⟩
      intro x hx
      rcases List.mem_cons.mp hx with rfl | hx
      · exact h₁
      · exact htrans a b x h₁ (hb x hx)
    · rename_i h₁
      have h₂ : le b a = true := (htot a b).resolve_left h₁
      refine List.pairwise_cons.mpr ⟨?_, orderedInsert_pairwise le htot htrans a hl⟩
      intro x hx
      rcases List.mem_cons.mp ((orderedInsert_perm le a l).mem_iff.mp hx) with rfl | hx
      · exact h₂
      · exact hb x hx

theorem jsSort_pairwise (le : α → α → Bool)
    (htot : ∀ x y, le x y = true ∨ le y x = true)
    (htrans : ∀ x y z, le x y = true → le y z = true → le x z = true) :
    ∀ l : List α, (jsSort le l).Pairwise (le · · = true)
  | [] => .nil
  | a :: l => orderedInsert_pairwise le htot htrans a (jsSort_pairwise le htot htrans l)

theorem jsSort_eq_of_perm (le : α → α → Bool)
    (hanti : ∀ x y, le x y = true → le y x = true → x = y)
    (htot : ∀ x y, le x y = true ∨ le y x = true)
    (htrans : ∀ x y z, le x y = true → le y z = true → le x z = true)
    {l₁ l₂ : List α} (h : l₁.Perm l₂) : jsSort le l₁ = jsSort le l₂ := by
  letI : IsAntisymm α (le · · = true) := ⟨hanti⟩
  exact List.eq_of_perm_of_sorted
    ((jsSort_perm le l₁).trans (h.trans (jsSort_perm le l₂).symm))
    (jsSort_pairwise le htot htrans l₁)
    (jsSort_pairwise le htot htrans l₂)

/-! ## `uniqueCodes`: first-occurrence de-duplication -/

theorem uniqueCodes_sublist (l : List Int) : (uniqueCodes l).Sublist l := by
  have h := (List.filter_sublist (p := fun p => l.indexOf p.2 == p.1) l.enum).map Prod.snd
  rwa [List.enum_map_snd] at h

theorem mem_uniqueCodes {l : List Int} {a : Int} : a ∈ uniqueCodes l ↔ a ∈ l := by
  constructor
  · exact fun h => (uniqueCodes_sublist l).subset h
  · intro h
    have hlt : l.indexOf a < l.length := List.indexOf_lt_length.mpr h
    refine List.mem_map.mpr ⟨(l.indexOf a, a), List.mem_filter.mpr ⟨?_, by simp⟩, rfl⟩
    exact List.mem_enum_iff_getElem?.mpr
      (by simp [List.getElem?_eq_getElem hlt, List.getElem_indexOf hlt])

theorem uniqueCodes_nodup (l : List Int) : (uniqueCodes l).Nodup := by
  have hnd : (l.enum.map Prod.fst).Nodup := by
    rw [List.enum_map_fst]; exact List.nodup_range _
  have henum : l.enum.Nodup := hnd.of_map Prod.fst
  have hfil : (l.enum.filter fun p => l.indexOf p.2 == p.1).Nodup :=
    henum.sublist (List.filter_sublist _)
  refine hfil.map_on ?_
  intro p hp q hq hsnd
  have hp' : l.indexOf p.2 = p.1 := by simpa using List.of_mem_filter hp
  have hq' : l.indexOf q.2 = q.1 := by simpa using List.of_mem_filter hq
  have hfst : p.1 = q.1 := by rw [← hp', ← hq', hsnd]
  exact Prod.ext hfst hsnd

theorem uniqueCodes_perm_of_toFinset_eq {l₁ l₂ : List Int}
    (h : l₁.toFinset = l₂.toFinset) : (uniqueCodes l₁).Perm (uniqueCodes l₂) := by
  refine List.perm_of_nodup_nodup_toFinset_eq (uniqueCodes_nodup _) (uniqueCodes_nodup _) ?_
  ext a
  simp only [List.mem_toFinset, mem_uniqueCodes]
  rw [← List.mem_toFinset, h, List.mem_toFinset]

/-! ## Congruence of the two serializers -/

theorem jsIntLeByStr_total (a b : Int) : jsIntLeByStr a b = true ∨ jsIntLeByStr b a = true :=
  jsStrLe_total (jsIntToString a) (jsIntToString b)

theorem jsIntLeByStr_trans (a b c : Int) (h₁ : jsIntLeByStr a b = true)
    (h₂ : jsIntLeByStr b c = true) : jsIntLeByStr a c = true :=
  jsStrLe_trans h₁ h₂

theorem serializeSuccessCodes_congr {c₁ c₂ : Option (List JsCode)}
    (h : c₁.map (fun l => (filterNumbers l).toFinset)
       = c₂.map (fun l => (filterNumbers l).toFinset)) :
    serializeSuccessCodes c₁ = serializeSuccessCodes c₂ := by
  match c₁, c₂ with
  | none, none => rfl
  | none, some l => simp at h
  | some l, none => simp at h
  | some l₁, some l₂ =>
    have h' : (filterNumbers l₁).toFinset = (filterNumbers l₂).toFinset := by simpa using h
    have hperm := uniqueCodes_perm_of_toFinset_eq h'
    have hmap : (jsSort jsIntLeByStr (uniqueCodes (filterNumbers l₁))).map jsIntToString
        = (jsSort jsIntLeByStr (uniqueCodes (filterNumbers l₂))).map jsIntToString := by
      letI : IsAntisymm String (jsStrLe · · = true) := ⟨fun _ _ => jsStrLe_antisymm⟩
      refine List.eq_of_perm_of_sorted (r := (jsStrLe · · = true)) ?_ ?_ ?_
      · exact ((jsSort_perm _ _).trans (hperm.trans (jsSort_perm _ _).symm)).map jsIntToString
      · exact List.pairwise_map.mpr
          (jsSort_pairwise jsIntLeByStr jsIntLeByStr_total jsIntLeByStr_trans _)
      · exact List.pairwise_map.mpr
          (jsSort_pairwise jsIntLeByStr jsIntLeByStr_total jsIntLeByStr_trans _)
    simp only [serializeSuccessCodes]
    rw [hmap]

theorem applyHeaders_acc : ∀ (l acc : ApiHeaders),
    (l.map fun p => jsToLower p.1).Nodup →
    (∀ p ∈ l, ∀ q ∈ acc, q.1 ≠ jsToLower p.1) →
    applyHeaders acc l = acc ++ l.map fun p => (jsToLower p.1, p.2)
  | [], acc, _, _ => by simp [applyHeaders, cloneHeaders]
  | (k, v) :: tl, acc, hnd, hdisj => by
    have hany : acc.any (fun p => p.1 == jsToLower k) = false := by
      rw [List.any_eq_false]
      intro p hp
      simpa using hdisj (k, v) (by simp) p hp
    rw [List.map_cons, List.nodup_cons] at hnd
    have hnd' : (tl.map fun p => jsToLower p.1).Nodup := hnd.2
    have hhead : ∀ p ∈ tl, jsToLower k ≠ jsToLower p.1 := by
      intro p hp heq
      exact hnd.1 (heq ▸ List.mem_map.mpr ⟨p, hp, rfl⟩)
    have hdisj' : ∀ p ∈ tl, ∀ q ∈ acc ++ [(jsToLower k, v)], q.1 ≠ jsToLower p.1 := by
      intro p hp q hq
      rcases List.mem_append.mp hq with hq | hq
      · exact hdisj p (List.mem_cons_of_mem _ hp) q hq
      · rcases List.mem_singleton.mp hq with rfl
        exact hhead p hp
    have hstep : applyHeaders acc ((k, v) :: tl)
        = applyHeaders (acc ++ [(jsToLower k, v)]) tl := by
      simp only [applyHeaders, cloneHeaders, List.foldl_cons]
      rw [jsObjSet, if_neg (by simp [hany])]
    rw [hstep, applyHeaders_acc tl (acc ++ [(jsToLower k, v)]) hnd' hdisj']
    simp

theorem serializeHeaders_canonical {oh : Option ApiHeaders} (h : headersNodupCI oh) :
    serializeHeaders oh
      = String.join (jsSort jsStrLe
          ((lowerHeaderList oh).map fun kv => kv.1 ++ ":" ++ kv.2 ++ ";")) := by
  match oh with
  | none => rfl
  | some l =>
    simp only [serializeHeaders, lowerHeaderList]
    rw [applyHeaders_acc l [] h (by simp)]
    simp

theorem lowerHeaderList_nodup {oh : Option ApiHeaders} (h : headersNodupCI oh) :
    (lowerHeaderList oh).Nodup := by
  match oh with
  | none => exact List.nodup_nil
  | some l =>
    refine List.Nodup.of_map Prod.fst ?_
    have hmm : (lowerHeaderList (some l)).map Prod.fst = l.map fun p => jsToLower p.1 := by
      simp [lowerHeaderList, List.map_map, Function.comp]
    rw [hmm]
    exact h

theorem serializeHeaders_congr {oh₁ oh₂ : Option ApiHeaders}
    (hn₁ : headersNodupCI oh₁) (hn₂ : headersNodupCI oh₂)
    (h : (lowerHeaderList oh₁).toFinset = (lowerHeaderList oh₂).toFinset) :
    serializeHeaders oh₁ = serializeHeaders oh₂ := by
  rw [serializeHeaders_canonical hn₁, serializeHeaders_canonical hn₂]
  have hperm := List.perm_of_nodup_nodup_toFinset_eq
    (lowerHeaderList_nodup hn₁) (lowerHeaderList_nodup hn₂) h
  congr 1
  exact jsSort_eq_of_perm jsStrLe (fun _ _ => jsStrLe_antisymm) jsStrLe_total
    (fun _ _ _ => jsStrLe_trans) (hperm.map _)

/-! ## JS `Map` lemmas -/

theorem mapGet_mapSet_self (m : List (String × V)) (k : String) (v : V) :
    mapGet (mapSet m k v) k = some v := by
  unfold mapSet
  split
  · rename_i h
    induction m with
    | nil => simp at h
    | cons p tl ih =>
      by_cases hp : (p.1 == k) = true
      · simp only [List.map_cons, if_pos hp]
        simp [mapGet, List.find?_cons]
      · simp only [List.any_cons, hp, Bool.false_or] at h
        simp only [List.map_cons, if_neg hp]
        simp only [mapGet, List.find?_cons, hp] at ih ⊢
        exact ih h
  · rename_i h
    induction m with
    | nil => simp [mapGet, List.find?]
    | cons p tl ih =>
      simp only [List.any_cons, Bool.or_eq_true, not_or] at h
      have hp : (p.1 == k) = false := by simpa using h.1
      simp only [List.cons_append, mapGet, List.find?_cons, hp]
      simp only [mapGet] at ih
      exact ih (by simpa using h.2)

/-! ## Branch lemmas for `getResponseBody` and `settleFetch` -/

theorem getResponseBody_of_none (params : ApiRequestParams) (options : ApiRequestOptions)
    (st : RMState) (h : mapGet st.inProgressRequestCache (getParamsId params) = none) :
    getResponseBody params options st
      = (st.nextPromise,
         { st with
             nextSymbol := st.nextSymbol + 1
             nextPromise := st.nextPromise + 1
             transportCalls := st.transportCalls + 1
             inProgressRequestCache :=
               mapSet st.inProgressRequestCache (getParamsId params)
                 ⟨st.nextSymbol, st.nextPromise⟩ }) := by
  simp only [getResponseBody, h]

theorem getResponseBody_of_some_true (params : ApiRequestParams) (options : ApiRequestOptions)
    (st : RMState) (e : InFlightEntry)
    (h : mapGet st.inProgressRequestCache (getParamsId params) = some e)
    (hd : options.deduplicate.getD (defaultDeduplicate params) = true) :
    getResponseBody params options st = (e.requestPromise, st) := by
  simp only [getResponseBody, h, hd]

theorem getResponseBody_of_some_false (params : ApiRequestParams) (options : ApiRequestOptions)
    (st : RMState) (e : InFlightEntry)
    (h : mapGet st.inProgressRequestCache (getParamsId params) = some e)
    (hd : options.deduplicate.getD (defaultDeduplicate params) = false) :
    getResponseBody params options st
      = (st.nextPromise,
         { st with
             nextSymbol := st.nextSymbol + 1
             nextPromise := st.nextPromise + 1
             transportCalls := st.transportCalls + 1
             inProgressRequestCache :=
               mapSet st.inProgressRequestCache (getParamsId params)
                 ⟨st.nextSymbol, st.nextPromise⟩ }) := by
  simp only [getResponseBody, h, hd]

theorem settleFetch_exn (st : ApiState) (params : ApiRequestParams)
    (options : ApiRequestOptions) (msg : String) :
    settleFetch st params options (.exn msg)
      = ({ st with errorEvents := st.errorEvents ++ [.exn msg] }, .error (.exn msg)) := rfl

theorem settleFetch_apiError (st : ApiState) (params : ApiRequestParams)
    (options : ApiRequestOptions) (resp : RequestFetcherResponse) (e : ApiError)
    (h : maybeThrowApiError params { resp with body := parsedBodyOf st params resp }
        = .error e) :
    settleFetch st params options (.ok resp)
      = ({ st with errorEvents := st.errorEvents ++ [.api e] }, .error (.api e)) := by
  simp only [settleFetch, h]

theorem settleFetch_success (st : ApiState) (params : ApiRequestParams)
    (options : ApiRequestOptions) (resp : RequestFetcherResponse)
    (h : maybeThrowApiError params { resp with body := parsedBodyOf st params resp }
        = .ok ())
    (hp : options.fetchPolicy.getD st.manager.defaultFetchPolicy
        ≠ ApiRequestFetchPolicy.noCache) :
    settleFetch st params options (.ok resp)
      = (writeCachedResponse st params (parsedBodyOf st params resp),
         .ok (parsedBodyOf st params resp)) := by
  simp only [settleFetch, h]
  rw [if_pos hp]

theorem settleFetch_success_noCache (st : ApiState) (params : ApiRequestParams)
    (options : ApiRequestOptions) (resp : RequestFetcherResponse)
    (h : maybeThrowApiError params { resp with body := parsedBodyOf st params resp }
        = .ok ())
    (hp : options.fetchPolicy.getD st.manager.defaultFetchPolicy
        = ApiRequestFetchPolicy.noCache) :
    settleFetch st params options (.ok resp) = (st, .ok (parsedBodyOf st params resp)) := by
  simp only [settleFetch, h]
  rw [if_neg (by simp [hp])]

/-! ## Claim theorems -/

/-- Claim C1: two request descriptors that agree on the method (an absent
method counting as `GET`), the url, the response type, the `extraKey`, the
set of headers compared case-insensitively and order-independently, and the
set of success codes ignoring order and duplicates — while possibly
differing in `body` — receive the same request key from `getParamsId`. -/
theorem getParamsId_eq_of_equiv (a b : ApiRequestParams)
    (hm : a.method.getD DEFAULT_REQUEST_METHOD = b.method.getD DEFAULT_REQUEST_METHOD)
    (hu : a.url = b.url)
    (hr : a.responseType = b.responseType)
    (he : a.extraKey = b.extraKey)
    (hna : headersNodupCI a.headers) (hnb : headersNodupCI b.headers)
    (hh : (lowerHeaderList a.headers).toFinset = (lowerHeaderList b.headers).toFinset)
    (hc : a.successCodes.map (fun l => (filterNumbers l).toFinset)
        = b.successCodes.map (fun l => (filterNumbers l).toFinset)) :
    getParamsId a = getParamsId b := by
  unfold getParamsId
  rw [hm, hu, hr, he, serializeHeaders_congr hna hnb hh, serializeSuccessCodes_congr hc]

/-- Witness for C1: two concrete descriptors differing in header casing and
order, success-code order and duplicates (plus a `null` entry), method
presence (`none` versus explicit `GET`) and body are keyed identically. -/
theorem getParamsId_eq_of_equiv_witness :
    (lowerHeaderList (some [("Accept", "1"), ("B", "2")])).toFinset
        = (lowerHeaderList (some [("b", "2"), ("ACCEPT", "1")])).toFinset
    ∧ getParamsId { url := "/e", headers := some [("Accept", "1"), ("B", "2")],
                    successCodes := some [.num 100, .num 20, .num 20, .null],
                    extraKey := some "x" }
        = getParamsId { url := "/e", headers := some [("b", "2"), ("ACCEPT", "1")],
                        successCodes := some [.num 20, .num 100], extraKey := some "x",
                        body := some (.str "ignored"), method := some .GET } :=
  ⟨by decide,
   getParamsId_eq_of_equiv _ _ (by decide) rfl rfl rfl
    (by simp only [headersNodupCI]; decide)
    (by simp only [headersNodupCI]; decide)
    (by decide)
    (by show some (filterNumbers [JsCode.num 100, JsCode.num 20, JsCode.num 20, JsCode.null]).toFinset
          = some (filterNumbers [JsCode.num 20, JsCode.num 100]).toFinset
        congr 1
        ext i
        simp [filterNumbers]
        tauto)⟩

/-- Claim C9 (amended): for a descriptor with a `successCodes` array the
request key embeds that array filtered to numbers, de-duplicated, and sorted
ascending in the lexicographic order of the decimal string representations
(the JS default sort comparator).  For arrays of equal-length codes — such
as standard three-digit HTTP statuses — this coincides with ascending
numeric order, but in general it does not: the key for `successCodes`
`[100, 20]` embeds `[100,20]`. -/
theorem getParamsId_embeds_sorted_codes (params : ApiRequestParams)
    (codes : List JsCode) (h : params.successCodes = some codes) :
    ∃ l : List Int,
      l.Nodup
      ∧ (∀ i : Int, i ∈ l ↔ i ∈ filterNumbers codes)
      ∧ l.Pairwise (jsIntLeByStr · · = true)
      ∧ serializeSuccessCodes params.successCodes
          = "[" ++ String.intercalate "," (l.map jsIntToString) ++ "]"
      ∧ getParamsId params
          = jsonStringifyArray [
              .str (methodToString (params.method.getD DEFAULT_REQUEST_METHOD)),
              .str params.url,
              .str (responseTypeToString params.responseType),
              .str (serializeHeaders params.headers),
              (match params.extraKey with | some s => .str s | none => .null),
              .str (serializeSuccessCodes params.successCodes)] := by
  refine ⟨jsSort jsIntLeByStr (uniqueCodes (filterNumbers codes)), ?_, ?_, ?_, ?_, rfl⟩
  · exact ((jsSort_perm _ _).nodup_iff).mpr (uniqueCodes_nodup _)
  · intro i
    rw [(jsSort_perm _ _).mem_iff, mem_uniqueCodes]
  · exact jsSort_pairwise _ jsIntLeByStr_total jsIntLeByStr_trans _
  · rw [h]
    rfl

/-- Witness for C9 (amended), at `successCodes = [100, 20]`. -/
theorem getParamsId_embeds_sorted_codes_witness :
    ({ url := "/endpoint", successCodes := some [.num 100, .num 20] }
          : ApiRequestParams).successCodes = some [.num 100, .num 20]
    ∧ ∃ l : List Int,
        l.Nodup
        ∧ (∀ i : Int, i ∈ l ↔ i ∈ filterNumbers [.num 100, .num 20])
        ∧ l.Pairwise (jsIntLeByStr · · = true)
        ∧ serializeSuccessCodes (({ url := "/endpoint",
                                    successCodes := some [.num 100, .num 20] }
              : ApiRequestParams).successCodes)
            = "[" ++ String.intercalate "," (l.map jsIntToString) ++ "]"
        ∧ getParamsId { url := "/endpoint", successCodes := some [.num 100, .num 20] }
            = jsonStringifyArray [
                .str "GET", .str "/endpoint", .str "", .str "", .null,
                .str (serializeSuccessCodes (some [.num 100, .num 20]))] :=
  ⟨rfl, getParamsId_embeds_sorted_codes
    { url := "/endpoint", successCodes := some [.num 100, .num 20] }
    [.num 100, .num 20] rfl⟩

/-- Counterexample to C9 as stated: the key for `successCodes [100, 20]`
embeds the lexicographically sorted `[100,20]`, not the numerically
ascending `[20,100]` the claim gives as its example. -/
theorem getParamsId_codes_not_numerically_sorted :
    serializeSuccessCodes (some [JsCode.num 100, JsCode.num 20]) = "[100,20]"
    ∧ getParamsId { url := "/endpoint", successCodes := some [.num 100, .num 20] }
        = "[\"GET\",\"/endpoint\",\"\",\"\",null,\"[100,20]\"]"
    ∧ getParamsId { url := "/endpoint", successCodes := some [.num 100, .num 20] }
        ≠ "[\"GET\",\"/endpoint\",\"\",\"\",null,\"[20,100]\"]" := by
  refine ⟨by decide, by decide, by decide⟩

/-- Claim C5: with a `successCodes` array present the request succeeds
exactly when the status is a member of the array, otherwise exactly when
`200 ≤ status ≤ 299`; on failure the thrown `ApiError` carries the request
method (defaulted to `GET`), url, status, the response body unchanged, and
the body kind. -/
theorem maybeThrowApiError_spec (params : ApiRequestParams) (r : RequestFetcherResponse) :
    (∀ codes, params.successCodes = some codes →
      (maybeThrowApiError params r = .ok () ↔ JsCode.num r.status ∈ codes))
    ∧ (params.successCodes = none →
      (maybeThrowApiError params r = .ok () ↔ 200 ≤ r.status ∧ r.status ≤ 299))
    ∧ (maybeThrowApiError params r ≠ .ok () →
      maybeThrowApiError params r
        = .error ⟨params.method.getD DEFAULT_REQUEST_METHOD, params.url,
                  r.status, r.body, r.bodyType⟩) := by
  refine ⟨?_, ?_, ?_⟩
  · intro codes hc
    simp only [maybeThrowApiError, hc]
    cases hall : codes.all
        (fun code => match code with | .num i => r.status != i | .null => true) with
    | true =>
      rw [if_pos rfl]
      constructor
      · intro he
        exact absurd he (by simp)
      · intro hmem
        have := List.all_eq_true.mp hall _ hmem
        simp at this
    | false =>
      rw [if_neg (by simp)]
      constructor
      · intro _
        rcases List.all_eq_false.mp hall with ⟨x, hx, hfx⟩
        match x, hfx with
        | .num i, hfx =>
          have : r.status = i := by simpa using hfx
          exact this ▸ hx
        | .null, hfx => simp at hfx
      · intro _
        rfl
  · intro hc
    simp only [maybeThrowApiError, hc]
    by_cases hs : r.status < 200 ∨ r.status > 299
    · rw [if_pos hs]
      constructor
      · intro he
        exact absurd he (by simp)
      · intro hmem
        exact absurd hmem (by omega)
    · rw [if_neg hs]
      constructor
      · intro _
        omega
      · intro _
        rfl
  · intro hne
    match hsc : params.successCodes with
    | some codes =>
      simp only [maybeThrowApiError, hsc] at hne ⊢
      by_cases hall : (codes.all
          fun code => match code with | .num i => r.status != i | .null => true) = true
      · rw [if_pos hall]
      · rw [if_neg hall] at hne
        exact absurd rfl hne
    | none =>
      simp only [maybeThrowApiError, hsc] at hne ⊢
      by_cases hs : r.status < 200 ∨ r.status > 299
      · rw [if_pos hs]
      · rw [if_neg hs] at hne
        exact absurd rfl hne

/-- Witness for C5: with override `successCodes: [400, 401]` a `400`
response resolves normally while a `200` response throws `ApiError`. -/
theorem maybeThrowApiError_spec_witness :
    ({ url := "/s", successCodes := some [.num 400, .num 401] }
          : ApiRequestParams).successCodes = some [.num 400, .num 401]
    ∧ (maybeThrowApiError { url := "/s", successCodes := some [.num 400, .num 401] }
            { body := none, bodyType := none, status := 400 } = .ok ()
        ↔ JsCode.num 400 ∈ [JsCode.num 400, JsCode.num 401])
    ∧ maybeThrowApiError { url := "/s", successCodes := some [.num 400, .num 401] }
        { body := none, bodyType := none, status := 400 } = .ok ()
    ∧ maybeThrowApiError { url := "/s", successCodes := some [.num 400, .num 401] }
        { body := none, bodyType := none, status := 200 }
      = .error ⟨.GET, "/s", 200, none, none⟩ :=
  ⟨rfl, (maybeThrowApiError_spec _ _).1 _ rfl, rfl, rfl⟩

/-- Claim C7: the in-flight registry entry for a key is removed by a
settling request only when the entry still carries that request's identity
token; a cleanup bearing a stale token, or hitting an absent entry, leaves
the state untouched, so a later request that re-registered the key is never
evicted by an earlier request's cleanup. -/
theorem cleanupInFlight_owner_guard (st : RMState) (params : ApiRequestParams) (id : Nat) :
    (∀ e, mapGet st.inProgressRequestCache (getParamsId params) = some e → e.id ≠ id →
      cleanupInFlight params id st = st)
    ∧ (∀ e, mapGet st.inProgressRequestCache (getParamsId params) = some e → e.id = id →
      cleanupInFlight params id st
        = { st with inProgressRequestCache :=
              mapDel st.inProgressRequestCache (getParamsId params) })
    ∧ (mapGet st.inProgressRequestCache (getParamsId params) = none →
      cleanupInFlight params id st = st) := by
  refine ⟨?_, ?_, ?_⟩
  · intro e he hne
    simp only [cleanupInFlight, he, if_neg hne]
  · intro e he heq
    simp only [cleanupInFlight, he, if_pos heq]
  · intro h
    simp only [cleanupInFlight, h]

/-- Witness for C7: a registry holding the key with token `5` is unchanged
by a cleanup bearing token `3` and emptied by a cleanup bearing token `5`. -/
theorem cleanupInFlight_owner_guard_witness :
    mapGet ({ apiInitState.manager with
                inProgressRequestCache :=
                  [(getParamsId { url := "/w7" }, ⟨5, 7⟩)] }
              : RMState).inProgressRequestCache (getParamsId { url := "/w7" })
        = some ⟨5, 7⟩
    ∧ (5 : Nat) ≠ 3
    ∧ cleanupInFlight { url := "/w7" } 3
          { apiInitState.manager with
              inProgressRequestCache := [(getParamsId { url := "/w7" }, ⟨5, 7⟩)] }
        = { apiInitState.manager with
              inProgressRequestCache := [(getParamsId { url := "/w7" }, ⟨5, 7⟩)] } :=
  ⟨by decide, by decide,
   (cleanupInFlight_owner_guard _ _ 3).1 ⟨5, 7⟩ (by decide) (by decide)⟩

/-- Claim C8 (amended): writing a response body through
`writeCachedResponse` and reading it back with `readCachedResponse` returns
exactly that body for every truthy body — any object or blob, or a
non-empty string.  For the empty string, the only falsy `ResponseBody`,
`GenericCache.get`'s `|| null` coalesces the stored value to the cache-miss
result `null`. -/
theorem readCachedResponse_writeCachedResponse (st : ApiState) (params : ApiRequestParams)
    (v : ResponseBody) (hv : v.truthy = true) :
    readCachedResponse (writeCachedResponse st params (some v)) params = some v := by
  simp only [readCachedResponse, writeCachedResponse, respCacheGet, mapGet_mapSet_self, hv,
    if_pos]

/-- Witness for C8 (amended): a concrete object body round-trips. -/
theorem readCachedResponse_writeCachedResponse_witness :
    (ResponseBody.obj [("test", "data")]).truthy = true
    ∧ readCachedResponse
        (writeCachedResponse apiInitState { url := "/w8" }
          (some (.obj [("test", "data")])))
        { url := "/w8" }
      = some (.obj [("test", "data")]) :=
  ⟨by decide, readCachedResponse_writeCachedResponse _ _ _ (by decide)⟩

/-- Counterexample to C8 as stated: the round-trip fails for the empty
string body, which `GenericCache.get` coalesces to `null`. -/
theorem readCachedResponse_empty_string_lost :
    readCachedResponse
        (writeCachedResponse apiInitState { url := "/w8c" } (some (.str "")))
        { url := "/w8c" }
      = none
    ∧ readCachedResponse
        (writeCachedResponse apiInitState { url := "/w8c" } (some (.str "")))
        { url := "/w8c" }
      ≠ some (.str "") := by
  refine ⟨by decide, by decide⟩

/-- Claim C2: under fetch policy `cache-only`, a request whose key misses
the response cache rejects with `ApiCacheMissError` and leaves the state —
in particular the Transport-invocation count — untouched; a request whose
key has a cached value resolves with that value, again without touching the
state. -/
theorem apiRequest_cacheOnly (st : ApiState) (params : ApiRequestParams) (d : Option Bool) :
    (respCacheGet st.responseBodyCache (getParamsId params) = none →
      apiRequest st params ⟨some .cacheOnly, d⟩
        = (.rejected ⟨"Cache miss: " ++ params.url⟩, st))
    ∧ (∀ v, respCacheGet st.responseBodyCache (getParamsId params) = some v →
      apiRequest st params ⟨some .cacheOnly, d⟩ = (.resolved v, st)) := by
  have hred : apiRequest st params ⟨some .cacheOnly, d⟩
      = (match respCacheGet st.responseBodyCache (getParamsId params) with
         | some cachedResponse => (.resolved cachedResponse, st)
         | none => (.rejected ⟨"Cache miss: " ++ params.url⟩, st)) := rfl
  constructor
  · intro h
    rw [hred, h]
  · intro v h
    rw [hred, h]

/-- Witness for C2, on an empty cache and on a cache populated for the
key. -/
theorem apiRequest_cacheOnly_witness :
    respCacheGet apiInitState.responseBodyCache (getParamsId { url := "/c2" }) = none
    ∧ apiRequest apiInitState { url := "/c2" } ⟨some .cacheOnly, none⟩
        = (.rejected ⟨"Cache miss: /c2"⟩, apiInitState)
    ∧ respCacheGet [(getParamsId { url := "/c2" }, some (.obj [("a", "1")]))]
        (getParamsId { url := "/c2" }) = some (.obj [("a", "1")])
    ∧ apiRequest
        { apiInitState with
            responseBodyCache := [(getParamsId { url := "/c2" }, some (.obj [("a", "1")]))] }
        { url := "/c2" } ⟨some .cacheOnly, none⟩
        = (.resolved (.obj [("a", "1")]),
           { apiInitState with
               responseBodyCache := [(getParamsId { url := "/c2" }, some (.obj [("a", "1")]))] }) :=
  ⟨rfl,
   (apiRequest_cacheOnly apiInitState { url := "/c2" } none).1 rfl,
   by decide,
   (apiRequest_cacheOnly _ { url := "/c2" } none).2 _ (by decide)⟩

/-- Claim C3: two calls with identical descriptors and default options,
the second issued while the first is still in flight: for a `GET` the
second returns the very same promise object and Transport is invoked
exactly once in total; for a `POST` each call invokes Transport (two
invocations) and the promises differ, because deduplication defaults to
`false` for non-`GET` methods. -/
theorem apiRequest_concurrent_dedup (st : ApiState) (params : ApiRequestParams)
    (hf : mapGet st.manager.inProgressRequestCache (getParamsId params) = none) :
    (params.method = some ApiRequestMethod.GET →
      ((apiRequest ((apiRequest st params {}).2) params {}).1 = (apiRequest st params {}).1
        ∧ (apiRequest ((apiRequest st params {}).2) params {}).2.manager.transportCalls
            = st.manager.transportCalls + 1))
    ∧ (params.method = some ApiRequestMethod.POST →
      ((apiRequest ((apiRequest st params {}).2) params {}).2.manager.transportCalls
          = st.manager.transportCalls + 2
        ∧ (apiRequest ((apiRequest st params {}).2) params {}).1
            ≠ (apiRequest st params {}).1)) := by
  have g1 := getResponseBody_of_none params {} st.manager hf
  have h0 : apiRequest st params {}
      = (.pending (getResponseBody params {} st.manager).1,
         { st with manager := (getResponseBody params {} st.manager).2 }) := rfl
  rw [g1] at h0
  have h2 : apiRequest ((apiRequest st params {}).2) params {}
      = (.pending (getResponseBody params {} ((apiRequest st params {}).2).manager).1,
         { (apiRequest st params {}).2 with
             manager := (getResponseBody params {} ((apiRequest st params {}).2).manager).2 }) := rfl
  have hmg : mapGet ((apiRequest st params {}).2).manager.inProgressRequestCache
        (getParamsId params)
      = some ⟨st.manager.nextSymbol, st.manager.nextPromise⟩ := by
    rw [h0]
    exact mapGet_mapSet_self _ _ _
  constructor
  · intro hm
    have hded : (({} : ApiRequestOptions).deduplicate.getD (defaultDeduplicate params)) = true := by
      simp [defaultDeduplicate, hm]
    have g2 := getResponseBody_of_some_true params {} ((apiRequest st params {}).2).manager
      ⟨st.manager.nextSymbol, st.manager.nextPromise⟩ hmg hded
    rw [h2, g2, h0]
    exact ⟨rfl, rfl⟩
  · intro hm
    have hded : (({} : ApiRequestOptions).deduplicate.getD (defaultDeduplicate params)) = false := by
      simp [defaultDeduplicate, hm]
    have g2 := getResponseBody_of_some_false params {} ((apiRequest st params {}).2).manager
      ⟨st.manager.nextSymbol, st.manager.nextPromise⟩ hmg hded
    rw [h2, g2, h0]
    refine ⟨rfl, ?_⟩
    simp only [ne_eq, Prod.fst, ApiRequestResult.pending.injEq]
    omega

/-- Witness for C3, for a concrete `GET` and a concrete `POST` pair of
calls on a fresh `Api`. -/
theorem apiRequest_concurrent_dedup_witness :
    mapGet apiInitState.manager.inProgressRequestCache
        (getParamsId { url := "/c3", method := some .GET }) = none
    ∧ ((apiRequest ((apiRequest apiInitState { url := "/c3", method := some .GET } {}).2)
          { url := "/c3", method := some .GET } {}).1
        = (apiRequest apiInitState { url := "/c3", method := some .GET } {}).1
      ∧ (apiRequest ((apiRequest apiInitState { url := "/c3", method := some .GET } {}).2)
          { url := "/c3", method := some .GET } {}).2.manager.transportCalls
        = apiInitState.manager.transportCalls + 1)
    ∧ ((apiRequest ((apiRequest apiInitState { url := "/c3", method := some .POST } {}).2)
          { url := "/c3", method := some .POST } {}).2.manager.transportCalls
        = apiInitState.manager.transportCalls + 2
      ∧ (apiRequest ((apiRequest apiInitState { url := "/c3", method := some .POST } {}).2)
          { url := "/c3", method := some .POST } {}).1
        ≠ (apiRequest apiInitState { url := "/c3", method := some .POST } {}).1) :=
  ⟨rfl,
   (apiRequest_concurrent_dedup apiInitState { url := "/c3", method := some .GET } rfl).1 rfl,
   (apiRequest_concurrent_dedup apiInitState { url := "/c3", method := some .POST } rfl).2 rfl⟩

/-- Claim C10: a descriptor omitting `method` receives the same request key
as the corresponding descriptor with `method: 'GET'`, yet
`defaultDeduplicate` is `false` for it (`params.method === 'GET'` fails on
the absent field), so two concurrent identical calls without an explicit
method each invoke Transport instead of sharing one in-flight promise. -/
theorem absentMethod_get_key_no_dedup (st : ApiState) (params : ApiRequestParams)
    (hm : params.method = none)
    (hf : mapGet st.manager.inProgressRequestCache (getParamsId params) = none) :
    getParamsId params = getParamsId { params with method := some ApiRequestMethod.GET }
    ∧ defaultDeduplicate params = false
    ∧ (apiRequest ((apiRequest st params {}).2) params {}).2.manager.transportCalls
        = st.manager.transportCalls + 2
    ∧ (apiRequest ((apiRequest st params {}).2) params {}).1 ≠ (apiRequest st params {}).1 := by
  have g1 := getResponseBody_of_none params {} st.manager hf
  have h0 : apiRequest st params {}
      = (.pending (getResponseBody params {} st.manager).1,
         { st with manager := (getResponseBody params {} st.manager).2 }) := rfl
  rw [g1] at h0
  have h2 : apiRequest ((apiRequest st params {}).2) params {}
      = (.pending (getResponseBody params {} ((apiRequest st params {}).2).manager).1,
         { (apiRequest st params {}).2 with
             manager := (getResponseBody params {} ((apiRequest st params {}).2).manager).2 }) := rfl
  have hmg : mapGet ((apiRequest st params {}).2).manager.inProgressRequestCache
        (getParamsId params)
      = some ⟨st.manager.nextSymbol, st.manager.nextPromise⟩ := by
    rw [h0]
    exact mapGet_mapSet_self _ _ _
  have hded : (({} : ApiRequestOptions).deduplicate.getD (defaultDeduplicate params)) = false := by
    simp [defaultDeduplicate, hm]
  have g2 := getResponseBody_of_some_false params {} ((apiRequest st params {}).2).manager
    ⟨st.manager.nextSymbol, st.manager.nextPromise⟩ hmg hded
  refine ⟨?_, ?_, ?_, ?_⟩
  · simp [getParamsId, hm, DEFAULT_REQUEST_METHOD]
  · simp [defaultDeduplicate, hm]
  · rw [h2, g2, h0]
  · rw [h2, g2, h0]
    simp only [ne_eq, ApiRequestResult.pending.injEq]
    omega

/-- Witness for C10, on a concrete method-less descriptor. -/
theorem absentMethod_get_key_no_dedup_witness :
    ({ url := "/c10" } : ApiRequestParams).method = none
    ∧ mapGet apiInitState.manager.inProgressRequestCache (getParamsId { url := "/c10" }) = none
    ∧ (getParamsId { url := "/c10" }
        = getParamsId { url := "/c10", method := some ApiRequestMethod.GET }
      ∧ defaultDeduplicate { url := "/c10" } = false
      ∧ (apiRequest ((apiRequest apiInitState { url := "/c10" } {}).2)
            { url := "/c10" } {}).2.manager.transportCalls
          = apiInitState.manager.transportCalls + 2
      ∧ (apiRequest ((apiRequest apiInitState { url := "/c10" } {}).2)
            { url := "/c10" } {}).1
          ≠ (apiRequest apiInitState { url := "/c10" } {}).1) :=
  ⟨rfl, rfl, absentMethod_get_key_no_dedup apiInitState { url := "/c10" } rfl rfl⟩

/-- Claim C4: after a Transport settlement, the response-cache entry for the
request's key is created or overwritten — with a subscriber notification on
the key's cache-update stream — exactly when the call succeeds under the
success-code contract and the effective fetch policy is not `'no-cache'`;
on a classification failure or a Transport exception the response cache
and its update stream are untouched and the failure is emitted on the
error stream. -/
theorem settleFetch_cache_discipline (st : ApiState) (params : ApiRequestParams)
    (options : ApiRequestOptions) :
    (∀ resp : RequestFetcherResponse,
      maybeThrowApiError params { resp with body := parsedBodyOf st params resp } = .ok () →
      options.fetchPolicy.getD st.manager.defaultFetchPolicy ≠ ApiRequestFetchPolicy.noCache →
      ((settleFetch st params options (.ok resp)).1.responseBodyCache
          = mapSet st.responseBodyCache (getParamsId params) (parsedBodyOf st params resp)
        ∧ (settleFetch st params options (.ok resp)).1.cacheUpdateEvents
          = st.cacheUpdateEvents ++ [(getParamsId params, parsedBodyOf st params resp)]
        ∧ (settleFetch st params options (.ok resp)).1.errorEvents = st.errorEvents
        ∧ (settleFetch st params options (.ok resp)).2 = .ok (parsedBodyOf st params resp)))
    ∧ (∀ resp : RequestFetcherResponse,
      maybeThrowApiError params { resp with body := parsedBodyOf st params resp } = .ok () →
      options.fetchPolicy.getD st.manager.defaultFetchPolicy = ApiRequestFetchPolicy.noCache →
      ((settleFetch st params options (.ok resp)).1 = st
        ∧ (settleFetch st params options (.ok resp)).2 = .ok (parsedBodyOf st params resp)))
    ∧ (∀ (resp : RequestFetcherResponse) (e : ApiError),
      maybeThrowApiError params { resp with body := parsedBodyOf st params resp } = .error e →
      ((settleFetch st params options (.ok resp)).1.responseBodyCache = st.responseBodyCache
        ∧ (settleFetch st params options (.ok resp)).1.cacheUpdateEvents = st.cacheUpdateEvents
        ∧ (settleFetch st params options (.ok resp)).1.errorEvents
          = st.errorEvents ++ [.api e]
        ∧ (settleFetch st params options (.ok resp)).2 = .error (.api e)))
    ∧ (∀ msg : String,
      ((settleFetch st params options (.exn msg)).1.responseBodyCache = st.responseBodyCache
        ∧ (settleFetch st params options (.exn msg)).1.cacheUpdateEvents = st.cacheUpdateEvents
        ∧ (settleFetch st params options (.exn msg)).1.errorEvents
          = st.errorEvents ++ [.exn msg]
        ∧ (settleFetch st params options (.exn msg)).2 = .error (.exn msg))) := by
  refine ⟨?_, ?_, ?_, ?_⟩
  · intro resp hok hp
    rw [settleFetch_success st params options resp hok hp]
    exact ⟨rfl, rfl, rfl, rfl⟩
  · intro resp hok hp
    rw [settleFetch_success_noCache st params options resp hok hp]
    exact ⟨rfl, rfl⟩
  · intro resp e herr
    rw [settleFetch_apiError st params options resp e herr]
    exact ⟨rfl, rfl, rfl, rfl⟩
  · intro msg
    rw [settleFetch_exn st params options msg]
    exact ⟨rfl, rfl, rfl, rfl⟩

/-- Witness for C4: a `200` json response under policy `fetch-first` writes
through; the same response under the (default) `no-cache` policy and a
`500` response leave the cache untouched. -/
theorem settleFetch_cache_discipline_witness :
    maybeThrowApiError { url := "/c4" }
        { body := some (.obj [("test", "data")]), bodyType := some .json, status := 200 }
      = .ok ()
    ∧ ((⟨some .fetchFirst, none⟩ : ApiRequestOptions).fetchPolicy.getD
        apiInitState.manager.defaultFetchPolicy ≠ ApiRequestFetchPolicy.noCache)
    ∧ ((settleFetch apiInitState { url := "/c4" } ⟨some .fetchFirst, none⟩
          (.ok { body := some (.obj [("test", "data")]), bodyType := some .json,
                 status := 200 })).1.responseBodyCache
        = mapSet apiInitState.responseBodyCache (getParamsId { url := "/c4" })
            (parsedBodyOf apiInitState { url := "/c4" }
              { body := some (.obj [("test", "data")]), bodyType := some .json,
                status := 200 })
      ∧ (settleFetch apiInitState { url := "/c4" } ⟨some .fetchFirst, none⟩
          (.ok { body := some (.obj [("test", "data")]), bodyType := some .json,
                 status := 200 })).1.cacheUpdateEvents
        = apiInitState.cacheUpdateEvents
            ++ [(getParamsId { url := "/c4" },
                 parsedBodyOf apiInitState { url := "/c4" }
                   { body := some (.obj [("test", "data")]), bodyType := some .json,
                     status := 200 })]
      ∧ (settleFetch apiInitState { url := "/c4" } ⟨some .fetchFirst, none⟩
          (.ok { body := some (.obj [("test", "data")]), bodyType := some .json,
                 status := 200 })).1.errorEvents = apiInitState.errorEvents
      ∧ (settleFetch apiInitState { url := "/c4" } ⟨some .fetchFirst, none⟩
          (.ok { body := some (.obj [("test", "data")]), bodyType := some .json,
                 status := 200 })).2
        = .ok (parsedBodyOf apiInitState { url := "/c4" }
            { body := some (.obj [("test", "data")]), bodyType := some .json,
              status := 200 })) :=
  ⟨rfl, by decide,
   (settleFetch_cache_discipline apiInitState { url := "/c4" } ⟨some .fetchFirst, none⟩).1
     _ rfl (by decide)⟩

/-- Claim C6: under `cache-and-fetch` with a cached value for the key, the
request resolves immediately with the cached value and starts one
background Transport call; if that background call fails (by classification
or by a Transport exception) the already-resolved foreground value is
unaffected, the response cache and its update stream are untouched, and the
failure appears only on the error stream; if it succeeds, the cache is
written through and the key's subscribers are notified. -/
theorem apiRequest_cacheAndFetch_background (st : ApiState) (params : ApiRequestParams)
    (d : Option Bool) (v : ResponseBody)
    (hc : respCacheGet st.responseBodyCache (getParamsId params) = some v)
    (hf : mapGet st.manager.inProgressRequestCache (getParamsId params) = none) :
    ((apiRequest st params ⟨some .cacheAndFetch, d⟩).1 = .resolved v)
    ∧ ((apiRequest st params ⟨some .cacheAndFetch, d⟩).2.manager.transportCalls
        = st.manager.transportCalls + 1)
    ∧ ((apiRequest st params ⟨some .cacheAndFetch, d⟩).2.responseBodyCache
        = st.responseBodyCache)
    ∧ (∀ msg : String,
        (settleFetch ((apiRequest st params ⟨some .cacheAndFetch, d⟩).2) params
            ⟨some .cacheAndFetch, d⟩ (.exn msg)).1.responseBodyCache
          = st.responseBodyCache
        ∧ (settleFetch ((apiRequest st params ⟨some .cacheAndFetch, d⟩).2) params
            ⟨some .cacheAndFetch, d⟩ (.exn msg)).1.cacheUpdateEvents
          = st.cacheUpdateEvents
        ∧ (settleFetch ((apiRequest st params ⟨some .cacheAndFetch, d⟩).2) params
            ⟨some .cacheAndFetch, d⟩ (.exn msg)).1.errorEvents
          = st.errorEvents ++ [.exn msg]
        ∧ (apiRequest st params ⟨some .cacheAndFetch, d⟩).1 = .resolved v)
    ∧ (∀ (resp : RequestFetcherResponse) (e : ApiError),
        maybeThrowApiError params
            { resp with
                body := parsedBodyOf ((apiRequest st params ⟨some .cacheAndFetch, d⟩).2)
                  params resp }
          = .error e →
        ((settleFetch ((apiRequest st params ⟨some .cacheAndFetch, d⟩).2) params
            ⟨some .cacheAndFetch, d⟩ (.ok resp)).1.responseBodyCache
          = st.responseBodyCache
        ∧ (settleFetch ((apiRequest st params ⟨some .cacheAndFetch, d⟩).2) params
            ⟨some .cacheAndFetch, d⟩ (.ok resp)).1.cacheUpdateEvents
          = st.cacheUpdateEvents
        ∧ (settleFetch ((apiRequest st params ⟨some .cacheAndFetch, d⟩).2) params
            ⟨some .cacheAndFetch, d⟩ (.ok resp)).1.errorEvents
          = st.errorEvents ++ [.api e]
        ∧ (apiRequest st params ⟨some .cacheAndFetch, d⟩).1 = .resolved v))
    ∧ (∀ resp : RequestFetcherResponse,
        maybeThrowApiError params
            { resp with
                body := parsedBodyOf ((apiRequest st params ⟨some .cacheAndFetch, d⟩).2)
                  params resp }
          = .ok () →
        ((settleFetch ((apiRequest st params ⟨some .cacheAndFetch, d⟩).2) params
            ⟨some .cacheAndFetch, d⟩ (.ok resp)).1.responseBodyCache
          = mapSet st.responseBodyCache (getParamsId params)
              (parsedBodyOf ((apiRequest st params ⟨some .cacheAndFetch, d⟩).2) params resp)
        ∧ (settleFetch ((apiRequest st params ⟨some .cacheAndFetch, d⟩).2) params
            ⟨some .cacheAndFetch, d⟩ (.ok resp)).1.cacheUpdateEvents
          = st.cacheUpdateEvents
              ++ [(getParamsId params,
                   parsedBodyOf ((apiRequest st params ⟨some .cacheAndFetch, d⟩).2)
                     params resp)])) := by
  have g1 := getResponseBody_of_none params ⟨some .cacheAndFetch, d⟩ st.manager hf
  have h0 : apiRequest st params ⟨some .cacheAndFetch, d⟩
      = (.resolved v,
         { st with
             manager := (getResponseBody params ⟨some .cacheAndFetch, d⟩ st.manager).2 }) := by
    rw [show apiRequest st params ⟨some .cacheAndFetch, d⟩
        = (match respCacheGet st.responseBodyCache (getParamsId params) with
           | some cachedResponse =>
              (.resolved cachedResponse,
               { st with
                   manager := (getResponseBody params ⟨some .cacheAndFetch, d⟩ st.manager).2 })
           | none =>
              (.pending (getResponseBody params ⟨some .cacheAndFetch, d⟩ st.manager).1,
               { st with
                   manager := (getResponseBody params ⟨some .cacheAndFetch, d⟩ st.manager).2 }))
      from rfl, hc]
  rw [g1] at h0
  have hpol : (⟨some .cacheAndFetch, d⟩ : ApiRequestOptions).fetchPolicy.getD
      ((apiRequest st params ⟨some .cacheAndFetch, d⟩).2).manager.defaultFetchPolicy
      ≠ ApiRequestFetchPolicy.noCache := by
    simp
  refine ⟨by rw [h0], by rw [h0], by rw [h0], ?_, ?_, ?_⟩
  · intro msg
    rw [settleFetch_exn]
    refine ⟨by rw [h0], by rw [h0], by rw [h0], by rw [h0]⟩
  · intro resp e herr
    rw [settleFetch_apiError _ _ _ _ _ herr]
    refine ⟨by rw [h0], by rw [h0], by rw [h0], by rw [h0]⟩
  · intro resp hok
    rw [settleFetch_success _ _ _ _ hok hpol]
    refine ⟨by rw [h0, writeCachedResponse], by rw [h0, writeCachedResponse]⟩

/-- Witness for C6: concrete cache hit, background failure by Transport
exception. -/
theorem apiRequest_cacheAndFetch_background_witness :
    respCacheGet ({ apiInitState with
        responseBodyCache :=
          [(getParamsId { url := "/c6" }, some (.obj [("test", "data")]))] }
          : ApiState).responseBodyCache (getParamsId { url := "/c6" })
      = some (.obj [("test", "data")])
    ∧ mapGet apiInitState.manager.inProgressRequestCache (getParamsId { url := "/c6" }) = none
    ∧ ((apiRequest
          { apiInitState with
              responseBodyCache :=
                [(getParamsId { url := "/c6" }, some (.obj [("test", "data")]))] }
          { url := "/c6" } ⟨some .cacheAndFetch, none⟩).1
        = .resolved (.obj [("test", "data")])) :=
  ⟨by decide, rfl,
   (apiRequest_cacheAndFetch_background
      { apiInitState with
          responseBodyCache :=
            [(getParamsId { url := "/c6" }, some (.obj [("test", "data")]))] }
      { url := "/c6" } none (.obj [("test", "data")]) (by decide) rfl).1⟩
